import Mathlib

/-!
Verification of the block/chain integrity engine of the educational
blockchain demo (`src/models/bloque.py`, `src/models/blockchain.py`,
`src/utils/hash_utils.py`, `src/utils/validators.py`,
`src/controllers/blockchain_controller.py`).

The Python code is shallowly embedded as pure Lean functions:

* `hashlib.sha256(...).hexdigest()` is implemented bit-for-bit over lists of
  bytes (`Nat` values `< 256`), with 32-bit words represented as `Nat` reduced
  `% 2^32`;
* Python `dict` payloads are association lists `List (String × JVal)` where
  `JVal` covers the string and numeric values the application stores (numbers
  are idealized as rationals; `json.dumps` rendering of a non-integral float
  is approximated, no theorem below depends on it);
* nondeterministic inputs (`datetime.now().isoformat()`, file contents) are
  threaded as explicit arguments;
* the chain singleton's mutable state is passed explicitly as `List Bloque`;
* raised-and-caught exceptions (`KeyError` in `Bloque.from_dict`, `IndexError`
  on an empty chain, `ValueError` in `Transaccion.__init__`) are modelled with
  `Option` and explicit failure branches.
-/

/-! ## SHA-256 (model of `hashlib.sha256(...).hexdigest()`) -/

/-- Modulus for 32-bit words. -/
def M32 : Nat := 4294967296

/-- Rotation of a 32-bit word to the right by `n` bits. -/
def rotr (n x : Nat) : Nat := (x >>> n) ||| ((x <<< (32 - n)) % M32)

/-- Big sigma-0 of SHA-256. -/
def bsig0 (x : Nat) : Nat := rotr 2 x ^^^ rotr 13 x ^^^ rotr 22 x

/-- Big sigma-1 of SHA-256. -/
def bsig1 (x : Nat) : Nat := rotr 6 x ^^^ rotr 11 x ^^^ rotr 25 x

/-- Small sigma-0 of SHA-256. -/
def ssig0 (x : Nat) : Nat := rotr 7 x ^^^ rotr 18 x ^^^ (x >>> 3)

/-- Small sigma-1 of SHA-256. -/
def ssig1 (x : Nat) : Nat := rotr 17 x ^^^ rotr 19 x ^^^ (x >>> 10)

/-- The 64 SHA-256 round constants (FIPS 180-4, in decimal). -/
def Kconst : List Nat :=
  [1116352408, 1899447441, 3049323471, 3921009573, 961987163,
   1508970993, 2453635748, 2870763221, 3624381080, 310598401,
   607225278, 1426881987, 1925078388, 2162078206, 2614888103,
   3248222580, 3835390401, 4022224774, 264347078, 604807628,
   770255983, 1249150122, 1555081692, 1996064986, 2554220882,
   2821834349, 2952996808, 3210313671, 3336571891, 3584528711,
   113926993, 338241895, 666307205, 773529912, 1294757372,
   1396182291, 1695183700, 1986661051, 2177026350, 2456956037,
   2730485921, 2820302411, 3259730800, 3345764771, 3516065817,
   3600352804, 4094571909, 275423344, 430227734, 506948616,
   659060556, 883997877, 958139571, 1322822218, 1537002063,
   1747873779, 1955562222, 2024104815, 2227730452, 2361852424,
   2428436474, 2756734187, 3204031479, 3329325298]

/-- State of the SHA-256 compression function: the eight working words. -/
abbrev ShaSt := Nat × Nat × Nat × Nat × Nat × Nat × Nat × Nat

/-- Initial SHA-256 hash values (FIPS 180-4, in decimal). -/
def initH : ShaSt :=
  (1779033703, 3144134277,
   1013904242, 2773480762,
   1359893119, 2600822924,
   528734635, 1541459225)

/-- Groups a byte list into big-endian 32-bit words (trailing partial group dropped;
inputs are always a multiple of four bytes). -/
def wordsOf : List Nat → List Nat
  | a :: b :: c :: d :: rest => (a * 16777216 + b * 65536 + c * 256 + d) :: wordsOf rest
  | _ => []

/-- Extends the message schedule; `acc` holds the words produced so far in
reverse order, so indices 1, 6, 14, 15 are the classical offsets t-2, t-7,
t-15, t-16. -/
def scheduleRev (acc : List Nat) : Nat → List Nat
  | 0 => acc
  | n + 1 =>
    scheduleRev
      (((ssig1 (acc.getD 1 0) + acc.getD 6 0 + ssig0 (acc.getD 14 0) + acc.getD 15 0) % M32) :: acc)
      n

/-- The 64-entry message schedule of one 512-bit chunk. -/
def chunkW (chunk : List Nat) : List Nat := (scheduleRev (wordsOf chunk).reverse 48).reverse

/-- One round of the SHA-256 compression function; `wk` is the pair of the
schedule word and the round constant. -/
def roundStep (st : ShaSt) (wk : Nat × Nat) : ShaSt :=
  match st with
  | (a, b, c, d, e, f, g, h) =>
    let ch := (e &&& f) ^^^ ((4294967295 - e) &&& g)
    let maj := (a &&& b) ^^^ (a &&& c) ^^^ (b &&& c)
    let t1 := (h + bsig1 e + ch + wk.1 + wk.2) % M32
    let t2 := (bsig0 a + maj) % M32
    ((t1 + t2) % M32, a, b, c, (d + t1) % M32, e, f, g)

/-- Compression of one 64-byte chunk into the running state. -/
def compressChunk (st : ShaSt) (chunk : List Nat) : ShaSt :=
  let st' := ((chunkW chunk).zip Kconst).foldl roundStep st
  match st, st' with
  | (a, b, c, d, e, f, g, h), (a', b', c', d', e', f', g', h') =>
    ((a + a') % M32, (b + b') % M32, (c + c') % M32, (d + d') % M32,
     (e + e') % M32, (f + f') % M32, (g + g') % M32, (h + h') % M32)

/-- Renders `v` as `n` big-endian bytes. -/
def toBE : Nat → Nat → List Nat
  | 0, _ => []
  | m + 1, v => toBE m (v / 256) ++ [v % 256]

/-- SHA-256 padding: a 0x80 byte, zeros to 56 mod 64, and the bit length as
eight big-endian bytes. -/
def padMsg (msg : List Nat) : List Nat :=
  let L := msg.length
  let k := (120 - (L + 1) % 64) % 64
  msg ++ [128] ++ List.replicate k 0 ++ toBE 8 (8 * L)

/-- Splits a list into 64-byte chunks; fuel-based so that the kernel can
reduce it (the fuel `l.length` always suffices). -/
def chunks64Fuel : Nat → List Nat → List (List Nat)
  | 0, _ => []
  | _, [] => []
  | fuel + 1, a :: t => ((a :: t).take 64) :: chunks64Fuel fuel ((a :: t).drop 64)

/-- Splits a padded message into 64-byte chunks. -/
def chunks64 (l : List Nat) : List (List Nat) := chunks64Fuel l.length l

/-- The SHA-256 state after absorbing the whole (padded) message. -/
def shaCore (msg : List Nat) : ShaSt := (chunks64 (padMsg msg)).foldl compressChunk initH

/-- The four big-endian bytes of a 32-bit word. -/
def wordBytes (w : Nat) : List Nat := [(w >>> 24) % 256, (w >>> 16) % 256, (w >>> 8) % 256, w % 256]

/-- The 32 digest bytes of a final SHA-256 state. -/
def digestBytes (st : ShaSt) : List Nat :=
  wordBytes st.1 ++ wordBytes st.2.1 ++ wordBytes st.2.2.1 ++ wordBytes st.2.2.2.1 ++
  wordBytes st.2.2.2.2.1 ++ wordBytes st.2.2.2.2.2.1 ++ wordBytes st.2.2.2.2.2.2.1 ++
  wordBytes st.2.2.2.2.2.2.2

/-- The sixteen lowercase hexadecimal digits. -/
def hexDigits : List Char := "0123456789abcdef".data

/-- The lowercase hexadecimal digit of a value below sixteen. -/
def hexChar (n : Nat) : Char := hexDigits.getD n '0'

/-- Concatenation of the images of `f`; our own definition so that proofs can
unfold it structurally. -/
def flatCM (f : α → List β) : List α → List β
  | [] => []
  | a :: t => f a ++ flatCM f t

/-- The two hexadecimal characters of one byte. -/
def hexPair (b : Nat) : List Char := [hexChar ((b >>> 4) &&& 15), hexChar (b &&& 15)]

/-- Model of `hashlib.sha256(msg).hexdigest()` on a byte list. -/
def sha256hex (msg : List Nat) : String := String.mk (flatCM hexPair (digestBytes (shaCore msg)))

/-- UTF-8 encoding of one character. -/
def charUtf8 (c : Char) : List Nat :=
  let n := c.toNat
  if n < 0x80 then [n]
  else if n < 0x800 then [0xC0 ||| (n >>> 6), 0x80 ||| (n &&& 0x3F)]
  else if n < 0x10000 then
    [0xE0 ||| (n >>> 12), 0x80 ||| ((n >>> 6) &&& 0x3F), 0x80 ||| (n &&& 0x3F)]
  else
    [0xF0 ||| (n >>> 18), 0x80 ||| ((n >>> 12) &&& 0x3F), 0x80 ||| ((n >>> 6) &&& 0x3F),
     0x80 ||| (n &&& 0x3F)]

/-- Model of Python's `str.encode('utf-8')`. -/
def utf8Encode (s : String) : List Nat := flatCM charUtf8 s.data

/-! ## JSON payloads and `json.dumps` (model of the serialization used by
`hash_utils.py` and `blockchain.py`) -/

/-- A JSON value stored in a block payload: the application stores strings and
numbers (Python `int` / `float`, idealized as `ℚ`; an integral value prints
without a decimal point, like a Python `int`). -/
inductive JVal where
  | jstr (s : String)
  | jnum (q : ℚ)
deriving DecidableEq

/-- A Python `dict` payload: an association list in insertion order. -/
abbrev Payload := List (String × JVal)

/-- Four lowercase hexadecimal digits of a code point, as in a JSON `\uXXXX`
escape. -/
def escHex4 (n : Nat) : List Char :=
  ['\\', 'u', hexChar ((n >>> 12) &&& 15), hexChar ((n >>> 8) &&& 15),
   hexChar ((n >>> 4) &&& 15), hexChar (n &&& 15)]

/-- JSON escaping of one character, following Python's `json` encoder: with
`ascii` set (the default `ensure_ascii=True`) every character outside
`0x20..0x7E` is escaped, else only the mandatory escapes are applied. -/
def jsonEscChar (ascii : Bool) (c : Char) : List Char :=
  let n := c.toNat
  if c = '"' then ['\\', '"']
  else if c = '\\' then ['\\', '\\']
  else if n = 8 then ['\\', 'b']
  else if n = 9 then ['\\', 't']
  else if n = 10 then ['\\', 'n']
  else if n = 12 then ['\\', 'f']
  else if n = 13 then ['\\', 'r']
  else if n < 0x20 then escHex4 n
  else if ascii && n > 0x7E then
    if n < 0x10000 then escHex4 n
    else escHex4 (0xD800 + ((n - 0x10000) >>> 10)) ++ escHex4 (0xDC00 + ((n - 0x10000) &&& 0x3FF))
  else [c]

/-- A JSON string literal with quotes and escapes. -/
def jsonQuote (ascii : Bool) (s : String) : String :=
  "\"" ++ String.mk (flatCM (jsonEscChar ascii) s.data) ++ "\""

/-- Rendering of a numeric JSON value. An integral value prints as a Python
`int` does; the non-integral case is an idealized stand-in for Python's float
`repr` (no theorem below evaluates it). -/
def qRepr (q : ℚ) : String :=
  if q.den = 1 then toString q.num else toString q.num ++ "/" ++ toString q.den

/-- Rendering of one JSON value as `json.dumps` would emit it. -/
def dumpsJVal (ascii : Bool) : JVal → String
  | .jstr s => jsonQuote ascii s
  | .jnum q => qRepr q

/-- Lexicographic code-point comparison of character lists, the order
Python's `sorted` applies to strings. (The library order on `String` is not
used because its iterator-based comparison does not reduce in the kernel.) -/
def charListLe : List Char → List Char → Bool
  | [], _ => true
  | _ :: _, [] => false
  | a :: s, b :: t => if a < b then true else if b < a then false else charListLe s t

/-- Code-point order on strings. -/
def strLeB (s t : String) : Bool := charListLe s.data t.data

/-- Sorted insertion used by `sortByKey`; keys are compared with the
code-point lexicographic string order, as Python's `sorted` does. -/
def insertByKey (p : String × JVal) : Payload → Payload
  | [] => [p]
  | q :: t => if strLeB p.1 q.1 then p :: q :: t else q :: insertByKey p t

/-- Sorting of a payload's entries by key, modelling `sort_keys=True`. -/
def sortByKey : Payload → Payload
  | [] => []
  | p :: t => insertByKey p (sortByKey t)

/-- Model of `json.dumps(d, sort_keys=True, ensure_ascii=False)` for a flat
dict, with the default separators `", "` and `": "`. -/
def dumpsSorted (d : Payload) : String :=
  "\x7b" ++ String.intercalate ", "
    ((sortByKey d).map (fun kv => jsonQuote false kv.1 ++ ": " ++ dumpsJVal false kv.2)) ++ "\x7d"

/-- Model of `json.dumps(d)` for a flat dict in insertion order (keys are not
sorted), with `ascii` selecting `ensure_ascii`. -/
def dumpsIns (ascii : Bool) (d : Payload) : String :=
  "\x7b" ++ String.intercalate ", "
    (d.map (fun kv => jsonQuote ascii kv.1 ++ ": " ++ dumpsJVal ascii kv.2)) ++ "\x7d"

/-! ## `src/utils/hash_utils.py` -/

/-- The argument of `calcular_sha256`: a raw string or a dict
(`datos: Union[str, dict]`). -/
inductive HashInput where
  | str (s : String)
  | dict (d : Payload)

/-- Model of `calcular_sha256`: a dict is serialized with
`json.dumps(datos, sort_keys=True, ensure_ascii=False)`, a string is used
as-is; the UTF-8 encoding is hashed with SHA-256 and rendered in hex. -/
def calcular_sha256 : HashInput → String
  | .str s => sha256hex (utf8Encode s)
  | .dict d => sha256hex (utf8Encode (dumpsSorted d))

/-- One argument of `combinar_datos_para_hash` (the code passes ints, strings
and dicts). -/
inductive HashPart where
  | int (i : Int)
  | str (s : String)
  | dict (d : Payload)

/-- The string form of one part: a dict is serialized with
`json.dumps(dato, sort_keys=True, ensure_ascii=False)`, anything else goes
through `str(...)`. -/
def hashPartStr : HashPart → String
  | .int i => toString i
  | .str s => s
  | .dict d => dumpsSorted d

/-- Model of `combinar_datos_para_hash(*args)`: the parts joined with `"|"`. -/
def combinar_datos_para_hash (parts : List HashPart) : String :=
  String.intercalate "|" (parts.map hashPartStr)

/-! ## `src/models/bloque.py` -/

/-- A block: the six attributes of the Python `Bloque`. `hash_actual` is an
ordinary field, so blocks whose stored hash is stale (after the simulated
attack, or rebuilt by `from_dict`) are representable. -/
structure Bloque where
  indice : Int
  timestamp : String
  datos : Payload
  hash_previo : String
  hash_actual : String
  nonce : Int
deriving DecidableEq

/-- The pre-image combined by `Bloque.calcular_hash`:
index, timestamp, datos, previous hash and nonce joined with `"|"`. -/
def combinarBloque (indice : Int) (timestamp : String) (datos : Payload)
    (hash_previo : String) (nonce : Int) : String :=
  combinar_datos_para_hash [.int indice, .str timestamp, .dict datos, .str hash_previo, .int nonce]

/-- Model of `Bloque.calcular_hash`: SHA-256 of the combined fields (the
stored `hash_actual` is not part of the pre-image). -/
def Bloque.calcular_hash (b : Bloque) : String :=
  calcular_sha256 (.str (combinarBloque b.indice b.timestamp b.datos b.hash_previo b.nonce))

/-- Model of `Bloque.__init__`: stores the given fields and computes
`hash_actual` from them. -/
def Bloque.init (indice : Int) (timestamp : String) (datos : Payload)
    (hash_previo : String) (nonce : Int) : Bloque :=
  { indice := indice, timestamp := timestamp, datos := datos, hash_previo := hash_previo,
    hash_actual := calcular_sha256 (.str (combinarBloque indice timestamp datos hash_previo nonce)),
    nonce := nonce }

/-- Model of `Bloque.validar`: recomputes the hash and compares it with the
stored one. -/
def Bloque.validar (b : Bloque) : Bool := b.calcular_hash == b.hash_actual

/-- A block record (`Dict[str, Any]`) as produced by `to_dict` or read back by
`from_dict` / the validators. Fields are `Option`s because an imported JSON
record may lack any of them (`dict.get` then yields `None`, and a plain index
access raises `KeyError`). -/
structure RecordJ where
  indice : Option Int
  timestamp : Option String
  datos : Option Payload
  hash_previo : Option String
  hash_actual : Option String
  nonce : Option Int
deriving DecidableEq

/-- Model of `Bloque.to_dict`: every field is present. -/
def Bloque.to_dictJ (b : Bloque) : RecordJ :=
  { indice := some b.indice, timestamp := some b.timestamp, datos := some b.datos,
    hash_previo := some b.hash_previo, hash_actual := some b.hash_actual,
    nonce := some b.nonce }

/-- Model of `Bloque.from_dict`: builds the block through `Bloque.__init__`
(which recomputes a hash) and then overwrites `hash_actual` with the stored
record value; a missing required field means the Python code raises
`KeyError`, modelled as `none` (`nonce` alone defaults to 0 via `dict.get`). -/
def Bloque.from_dictJ (r : RecordJ) : Option Bloque :=
  match r.indice, r.timestamp, r.datos, r.hash_previo, r.hash_actual with
  | some i, some t, some d, some hp, some h =>
    some { Bloque.init i t d hp (r.nonce.getD 0) with hash_actual := h }
  | _, _, _, _, _ => none

/-- Model of `Bloque.crear_bloque`: the timestamp produced by
`datetime.now().isoformat()` is threaded as the explicit argument `ts`. -/
def crear_bloque (indice : Int) (datos : Payload) (hash_previo : String) (ts : String) : Bloque :=
  Bloque.init indice ts datos hash_previo 0

/-- The fixed sentinel payload of the genesis block. -/
def datosGenesis : Payload :=
  [("mensaje", .jstr "Bloque Génesis"), ("descripcion", .jstr "Primer bloque de la cadena")]

/-- Model of `Bloque.crear_bloque_genesis`. -/
def crear_bloque_genesis (ts : String) : Bloque := Bloque.init 0 ts datosGenesis "0" 0

/-- Model of `Bloque._modificar_datos`: overwrites the payload without
recomputing the hash. -/
def Bloque.modificar_datos (b : Bloque) (nuevos : Payload) : Bloque := { b with datos := nuevos }

/-! ## `src/utils/validators.py` -/

/-- Model of the base `Validador.validar` wrapper around a concrete
`_validar_especifico`: a failure is returned as-is, a success (with no next
validator attached, which is how all three pipelines are used in this code
base) becomes `(True, "Validación exitosa")`. -/
def validarWrap (especifico : α → Bool × String) (datos : α) : Bool × String :=
  let r := especifico datos
  if r.1 then (true, "Validación exitosa") else (false, r.2)

/-- First value bound to a key in a payload dict (Python dicts are
duplicate-free, so taking the first binding is faithful). -/
def lookupP : Payload → String → Option JVal
  | [], _ => none
  | (k', v) :: t, k => if k' = k then some v else lookupP t k

/-- Python truthiness of a payload value (`not datos[campo]`): the empty
string and the number zero are falsy. -/
def esFalsy : JVal → Bool
  | .jstr s => s = ""
  | .jnum q => q = 0

/-- Model of Python `float(x)` on a string argument for the plain decimal
forms the validator can meet (optional sign, digits, optional fraction);
other accepted Python spellings (exponents, `inf`, whitespace) are out of
scope and map to a conversion failure. -/
def parseDecimal (s : String) : Option ℚ :=
  let cs := s.data
  let (neg, body) :=
    match cs with
    | '-' :: t => (true, t)
    | '+' :: t => (false, t)
    | _ => (false, cs)
  let intPart := body.takeWhile Char.isDigit
  let rest := body.dropWhile Char.isDigit
  let toNatQ : List Char → ℚ := fun l => ((l.foldl (fun a c => a * 10 + (c.toNat - 48)) 0 : Nat) : ℚ)
  let signed : ℚ → ℚ := fun q => if neg then -q else q
  match rest with
  | [] => if intPart = [] then none else some (signed (toNatQ intPart))
  | '.' :: frac =>
    if frac.all Char.isDigit ∧ (intPart ≠ [] ∨ frac ≠ []) then
      some (signed (toNatQ intPart + toNatQ frac / (10 ^ frac.length : ℚ)))
    else none
  | _ => none

/-- Model of Python `float(x)` as applied to `datos["cantidad"]`. -/
def toFloatQ : JVal → Option ℚ
  | .jnum q => some q
  | .jstr s => parseDecimal s

/-- Model of `ValidadorTransaccion._validar_especifico`: the fields `emisor`,
`receptor`, `cantidad` are checked in order for presence and truthiness, then
`cantidad` must convert to a positive number. (The `isinstance(datos, dict)`
guard is discharged by typing the input as a payload dict.) -/
def validadorTransaccionEspecifico (datos : Payload) : Bool × String :=
  match lookupP datos "emisor" with
  | none => (false, "Falta el campo requerido: emisor")
  | some v1 =>
    if esFalsy v1 then (false, "El campo 'emisor' no puede estar vacío")
    else
      match lookupP datos "receptor" with
      | none => (false, "Falta el campo requerido: receptor")
      | some v2 =>
        if esFalsy v2 then (false, "El campo 'receptor' no puede estar vacío")
        else
          match lookupP datos "cantidad" with
          | none => (false, "Falta el campo requerido: cantidad")
          | some v3 =>
            if esFalsy v3 then (false, "El campo 'cantidad' no puede estar vacío")
            else
              match toFloatQ v3 with
              | none => (false, "La cantidad debe ser un número válido")
              | some q =>
                if q ≤ 0 then (false, "La cantidad debe ser mayor a cero")
                else (true, "")

/-- Model of `ValidadorBloque._validar_especifico`: the five required record
fields are checked for presence in order, then the index must be a
non-negative integer and the stored hash non-empty. -/
def validadorBloqueEspecifico (r : RecordJ) : Bool × String :=
  if r.indice.isNone then (false, "Falta el campo requerido en el bloque: indice")
  else if r.timestamp.isNone then (false, "Falta el campo requerido en el bloque: timestamp")
  else if r.datos.isNone then (false, "Falta el campo requerido en el bloque: datos")
  else if r.hash_previo.isNone then (false, "Falta el campo requerido en el bloque: hash_previo")
  else if r.hash_actual.isNone then (false, "Falta el campo requerido en el bloque: hash_actual")
  else
    let i := r.indice.getD 0
    let h := r.hash_actual.getD ""
    if i < 0 then (false, "El índice del bloque debe ser mayor o igual a cero")
    else if h = "" then (false, "El hash actual del bloque no puede estar vacío")
    else (true, "")

/-- The link-and-index loop of `ValidadorCadena._validar_especifico` over the
blocks after the genesis one; `i` is the loop counter, `prev` the preceding
record. Comparisons are `Option`-level because the Python code uses
`dict.get`, so a missing field compares as `None`. -/
def validarEnlacesLoop : List RecordJ → RecordJ → Nat → Bool × String
  | [], _, _ => (true, "")
  | r :: rest, prev, i =>
    if r.indice ≠ some (i : Int) then
      (false, "Índice incorrecto en bloque " ++ toString i)
    else if r.hash_previo ≠ prev.hash_actual then
      (false, "Cadena rota en bloque " ++ toString i ++ ": hash_previo no coincide")
    else validarEnlacesLoop rest r (i + 1)

/-- Model of `ValidadorCadena._validar_especifico`: rejects the empty list,
checks the genesis record's index and previous hash, then walks the links.
(The `isinstance(datos, list)` guard is discharged by the input type.) -/
def validadorCadenaEspecifico : List RecordJ → Bool × String
  | [] => (false, "La cadena está vacía")
  | g :: rest =>
    if g.indice ≠ some 0 then (false, "El primer bloque debe tener índice 0")
    else if g.hash_previo ≠ some "0" then (false, "El bloque génesis debe tener hash_previo = '0'")
    else validarEnlacesLoop rest g 1

/-! ## `src/models/blockchain.py` — chain state and operations

The singleton's mutable `__cadena` is passed explicitly; every mutating
operation returns the Python return value paired with the successor state. -/

/-- Model of `CadenaDeBloques.__init__`: the fresh chain holds exactly the
genesis block (`ts` is the creation timestamp). -/
def inicializar (ts : String) : List Bloque := [crear_bloque_genesis ts]

/-- Model of `CadenaDeBloques.agregar_bloque`: reads the tail block
(`__cadena[-1]`; on an empty chain the raised `IndexError` is caught and
`False` returned), builds the next block, validates its record form with
`ValidadorBloque` and appends it only on success. -/
def agregar_bloque (cadena : List Bloque) (datos : Payload) (ts : String) : Bool × List Bloque :=
  match cadena.getLast? with
  | none => (false, cadena)
  | some ultimo =>
    let nuevo := crear_bloque (ultimo.indice + 1) datos ultimo.hash_actual ts
    let v := validarWrap validadorBloqueEspecifico nuevo.to_dictJ
    if v.1 then (true, cadena ++ [nuevo]) else (false, cadena)

/-- The per-block loop of `CadenaDeBloques.validar_cadena`: the message of the
first block whose self-validation fails, if any. -/
def primerBloqueInvalido : List Bloque → Option String
  | [] => none
  | b :: rest =>
    if b.validar then primerBloqueInvalido rest
    else some ("Bloque " ++ toString b.indice ++ " tiene hash inválido")

/-- Model of `CadenaDeBloques.validar_cadena`: every block is self-validated
first, then `ValidadorCadena` checks the structure of the record list. -/
def validar_cadena (cadena : List Bloque) : Bool × String :=
  match primerBloqueInvalido cadena with
  | some m => (false, m)
  | none => validarWrap validadorCadenaEspecifico (cadena.map Bloque.to_dictJ)

/-- Model of `CadenaDeBloques.obtener_cadena_completa`. -/
def obtener_cadena_completa (cadena : List Bloque) : List RecordJ := cadena.map Bloque.to_dictJ

/-- Model of `CadenaDeBloques.longitud`. -/
def longitud (cadena : List Bloque) : Nat := cadena.length

/-- In-place update of the block at a position, modelling the mutation done
through `self.__cadena[indice]`. -/
def modifyAt (l : List Bloque) (n : Nat) (f : Bloque → Bloque) : List Bloque :=
  match l, n with
  | [], _ => []
  | b :: t, 0 => f b :: t
  | b :: t, m + 1 => b :: modifyAt t m f

/-- Model of `CadenaDeBloques.simular_ataque`: inside bounds the addressed
block's payload is overwritten without recomputing its hash; out of bounds
nothing happens and `False` is returned. -/
def simular_ataque (cadena : List Bloque) (indice : Int) (nuevos : Payload) :
    Bool × List Bloque :=
  if 0 ≤ indice ∧ indice < (cadena.length : Int) then
    (true, modifyAt cadena indice.toNat (fun b => b.modificar_datos nuevos))
  else (false, cadena)

/-- Model of `CadenaDeBloques.reiniciar`. -/
def reiniciar (ts : String) : List Bloque := [crear_bloque_genesis ts]

/-- One block record as `json.dumps` renders it without `indent` and with the
default `ensure_ascii=True` — the form measured by `obtener_estadisticas`.
Keys appear in the `to_dict` insertion order; the record keys themselves are
plain ASCII, so they are written literally. -/
def dumpsBloqueCompact (b : Bloque) : String :=
  "\x7b\"indice\": " ++ toString b.indice ++
  ", \"timestamp\": " ++ jsonQuote true b.timestamp ++
  ", \"datos\": " ++ dumpsIns true b.datos ++
  ", \"hash_previo\": " ++ jsonQuote true b.hash_previo ++
  ", \"hash_actual\": " ++ jsonQuote true b.hash_actual ++
  ", \"nonce\": " ++ toString b.nonce ++ "\x7d"

/-- Model of `json.dumps(self.obtener_cadena_completa())` with the default
separators, no indentation and `ensure_ascii=True`. -/
def dumpsChainCompact (cadena : List Bloque) : String :=
  "[" ++ String.intercalate ", " (cadena.map dumpsBloqueCompact) ++ "]"

/-- A payload dict under `json.dumps(..., indent=2, ensure_ascii=False)`;
`ind` is the indentation prefix of the closing brace (the entries are two
spaces deeper). -/
def dumpsPayloadIndent (ind : String) (d : Payload) : String :=
  match d with
  | [] => "\x7b\x7d"
  | _ =>
    "\x7b\n" ++
    String.intercalate ",\n"
      (d.map (fun kv => ind ++ "  " ++ jsonQuote false kv.1 ++ ": " ++ dumpsJVal false kv.2)) ++
    "\n" ++ ind ++ "\x7d"

/-- One block record under `json.dumps(..., indent=2, ensure_ascii=False)` as
it appears inside the exported array (record braces indented two spaces, keys
four). -/
def dumpsBloqueIndent (b : Bloque) : String :=
  "\x7b\n    \"indice\": " ++ toString b.indice ++
  ",\n    \"timestamp\": " ++ jsonQuote false b.timestamp ++
  ",\n    \"datos\": " ++ dumpsPayloadIndent "    " b.datos ++
  ",\n    \"hash_previo\": " ++ jsonQuote false b.hash_previo ++
  ",\n    \"hash_actual\": " ++ jsonQuote false b.hash_actual ++
  ",\n    \"nonce\": " ++ toString b.nonce ++ "\n  \x7d"

/-- Model of the text `CadenaDeBloques.exportar_json` writes:
`json.dump(cadena_dict, archivo, indent=2, ensure_ascii=False)`. The file
system boundary is out of the model; the function yields the content. -/
def exportar_json_contenido (cadena : List Bloque) : String :=
  match cadena with
  | [] => "[]"
  | _ => "[\n" ++ String.intercalate ",\n" (cadena.map (fun b => "  " ++ dumpsBloqueIndent b)) ++ "\n]"

/-- Model of `Bloque.from_dict` applied across an imported record list (the
list comprehension in `importar_json`); a `KeyError` anywhere aborts the
whole rebuild. -/
def rebuildCadena : List RecordJ → Option (List Bloque)
  | [] => some []
  | r :: rest =>
    match Bloque.from_dictJ r, rebuildCadena rest with
    | some b, some bs => some (b :: bs)
    | _, _ => none

/-- Model of `CadenaDeBloques.importar_json`. The argument `contenido` stands
for the parsed JSON of the file: `none` when the file cannot be read or
parsed (the raised exception is caught and `False` returned). The imported
list is validated with `ValidadorCadena`; only when validation succeeds and
every record rebuilds does the in-memory chain get replaced. -/
def importar_json (cadena : List Bloque) (contenido : Option (List RecordJ)) :
    Bool × List Bloque :=
  match contenido with
  | none => (false, cadena)
  | some rs =>
    if (validarWrap validadorCadenaEspecifico rs).1 then
      match rebuildCadena rs with
      | some nueva => (true, nueva)
      | none => (false, cadena)
    else (false, cadena)

/-! ## `obtener_estadisticas` and its time arithmetic -/

/-- Decimal value of a digit list. -/
def digitsVal (cs : List Char) : Nat := cs.foldl (fun a c => a * 10 + (c.toNat - 48)) 0

/-- Day count of a proleptic Gregorian date (an affine shift of Python's
`date.toordinal`; the shift cancels in every timestamp difference taken by
`obtener_estadisticas`). -/
def daysFromCivil (y m d : Nat) : Nat :=
  let yy := y - (if m ≤ 2 then 1 else 0)
  let era := yy / 400
  let yoe := yy % 400
  let mp := (m + 9) % 12
  let doy := (153 * mp + 2) / 5 + d - 1
  let doe := yoe * 365 + yoe / 4 - yoe / 100 + doy
  era * 146097 + doe

/-- Model of `datetime.fromisoformat` restricted to the strings
`datetime.now().isoformat()` emits (`YYYY-MM-DDTHH:MM:SS[.ffffff]`), as a
second count. Exact rational arithmetic stands in for Python's floats. -/
def parseIso (s : String) : ℚ :=
  let cs := s.data
  let y := digitsVal (cs.take 4)
  let mo := digitsVal ((cs.drop 5).take 2)
  let d := digitsVal ((cs.drop 8).take 2)
  let h := digitsVal ((cs.drop 11).take 2)
  let mi := digitsVal ((cs.drop 14).take 2)
  let sec := digitsVal ((cs.drop 17).take 2)
  let fracCs := (cs.drop 20).takeWhile Char.isDigit
  let frac : ℚ := if fracCs = [] then 0 else (digitsVal fracCs : ℚ) / (10 ^ fracCs.length : ℚ)
  (daysFromCivil y mo d : ℚ) * 86400 + h * 3600 + mi * 60 + sec + frac

/-- Round-half-to-even on rationals, the idealization of Python's `round`. -/
def roundHalfEven (q : ℚ) : Int :=
  let f := ⌊q⌋
  let r := q - f
  if r < 1 / 2 then f
  else if r > 1 / 2 then f + 1
  else if f % 2 = 0 then f else f + 1

/-- Model of Python `round(x, 2)`. -/
def round2 (q : ℚ) : ℚ := (roundHalfEven (q * 100) : ℚ) / 100

/-- The dictionary returned by `obtener_estadisticas`. -/
structure Estadisticas where
  total_bloques : Nat
  tamano_bytes : Nat
  tiempo_promedio_segundos : ℚ
  es_valida : Bool
deriving DecidableEq

/-- Model of `CadenaDeBloques.obtener_estadisticas`: `{}` (here `none`) on an
empty chain; the size is the UTF-8 byte count of the compact
(`ensure_ascii=True`, no indent) dump; the mean interval divides the
first-to-last timestamp span by `len - 1` and is rounded to two decimals. -/
def obtener_estadisticas (cadena : List Bloque) : Option Estadisticas :=
  match cadena with
  | [] => none
  | b :: rest =>
    let tamano := (utf8Encode (dumpsChainCompact (b :: rest))).length
    let tp : ℚ :=
      if (b :: rest).length > 1 then
        round2
          ((parseIso (((b :: rest).getLast (List.cons_ne_nil b rest)).timestamp) -
              parseIso b.timestamp) /
            (((b :: rest).length - 1 : Nat) : ℚ))
      else 0
    some
      { total_bloques := (b :: rest).length, tamano_bytes := tamano,
        tiempo_promedio_segundos := tp, es_valida := (validar_cadena (b :: rest)).1 }

/-! ## `src/models/transaccion.py` and the controller -/

/-- A transaction; `timestamp` is the `datetime.now().isoformat()` value
threaded explicitly. -/
structure Transaccion where
  emisor : String
  receptor : String
  cantidad : ℚ
  descripcion : String
  timestamp : String

/-- Model of `Transaccion.to_dict`. -/
def Transaccion.to_dictP (t : Transaccion) : Payload :=
  [("emisor", .jstr t.emisor), ("receptor", .jstr t.receptor), ("cantidad", .jnum t.cantidad),
   ("descripcion", .jstr t.descripcion), ("timestamp", .jstr t.timestamp)]

/-- Model of `BlockchainController.agregar_bloque_con_transaccion`: the
transaction dict is validated first; then `Transaccion.__init__` re-checks
`cantidad > 0` (a `ValueError` is caught as `(False, str(e))`); only then is
the block appended. `ts_tx` and `ts_bloque` are the two timestamps stamped
along the way. -/
def agregar_bloque_con_transaccion (cadena : List Bloque) (emisor receptor : String)
    (cantidad : ℚ) (descripcion : String) (ts_tx ts_bloque : String) :
    (Bool × String) × List Bloque :=
  let datos_transaccion : Payload :=
    [("emisor", .jstr emisor), ("receptor", .jstr receptor), ("cantidad", .jnum cantidad),
     ("descripcion", .jstr descripcion)]
  let v := validarWrap validadorTransaccionEspecifico datos_transaccion
  if v.1 then
    if cantidad ≤ 0 then ((false, "La cantidad debe ser mayor a cero"), cadena)
    else
      let t : Transaccion :=
        { emisor := emisor, receptor := receptor, cantidad := cantidad,
          descripcion := descripcion, timestamp := ts_tx }
      let r := agregar_bloque cadena t.to_dictP ts_bloque
      if r.1 then ((true, "Bloque agregado exitosamente"), r.2)
      else ((false, "Error al agregar el bloque"), r.2)
  else ((false, v.2), cadena)

/-! ## Reference-level view of `Bloque.get_datos`

`get_datos` returns `self.__datos.copy()`. To express what the copy buys, the
`datos` attribute is modelled here as a reference into a store of payload
objects; `get_datosRef` allocates a fresh object holding the same entries,
exactly as `dict.copy()` does. -/

/-- A block whose payload attribute is a reference into a payload store. -/
structure BloqueRef where
  indice : Int
  timestamp : String
  datosRef : Nat
  hash_previo : String
  hash_actual : String
  nonce : Int

/-- Reads the payload object a reference designates. -/
def storeRead (store : List Payload) (r : Nat) : Payload := store.getD r []

/-- In-place mutation of the payload object a reference designates. -/
def storeWrite (store : List Payload) (r : Nat) (p : Payload) : List Payload := store.set r p

/-- Allocation of a fresh payload object. -/
def storeAlloc (store : List Payload) (p : Payload) : List Payload × Nat :=
  (store ++ [p], store.length)

/-- The hash `Bloque.calcular_hash` computes, read through the store. -/
def calcular_hashRef (store : List Payload) (b : BloqueRef) : String :=
  calcular_sha256
    (.str (combinarBloque b.indice b.timestamp (storeRead store b.datosRef) b.hash_previo b.nonce))

/-- `Bloque.validar`, read through the store. -/
def validarRef (store : List Payload) (b : BloqueRef) : Bool :=
  calcular_hashRef store b == b.hash_actual

/-- Model of `Bloque.get_datos`: `self.__datos.copy()` allocates a fresh dict
with the same entries and hands back a reference to the copy. -/
def get_datosRef (store : List Payload) (b : BloqueRef) : List Payload × Nat :=
  storeAlloc store (storeRead store b.datosRef)

/-- Structural soundness of a block list continuing a chain: starting from
previous hash `prevHash` and index `i`, each block links to its predecessor,
carries the next index, and stores the hash of its own content. -/
def WFfrom (prevHash : String) (i : Int) : List Bloque → Prop
  | [] => True
  | b :: rest =>
    b.hash_previo = prevHash ∧ b.indice = i ∧ b.hash_actual = b.calcular_hash ∧
    WFfrom b.hash_actual (i + 1) rest

/-- A chain state reachable by initialization and appends: non-empty and
structurally sound from the genesis anchor. -/
def WFChain (cadena : List Bloque) : Prop := cadena ≠ [] ∧ WFfrom "0" 0 cadena

/-- The stored hash of the last block, with a default for the empty list. -/
def lastHashD (d : String) : List Bloque → String
  | [] => d
  | b :: rest => lastHashD b.hash_actual rest

/-- A sequence of `agregar_bloque` calls, each taking the chain state the
previous call left behind (a failed call leaves the state unchanged). -/
def aplicarAppends (ops : List (Payload × String)) (cadena : List Bloque) : List Bloque :=
  match ops with
  | [] => cadena
  | (d, ts) :: rest => aplicarAppends rest (agregar_bloque cadena d ts).2

/-- Key order on payload entries. -/
def keyLe (a b : String × JVal) : Prop := strLeB a.1 b.1 = true

/-- Strict key order on payload entries: ordered keys that differ. -/
def keyLt (a b : String × JVal) : Prop := keyLe a b ∧ a.1 ≠ b.1

/-! ## Substring search used to state "the message names the field" -/

/-- Whether `pat` is an initial segment of the character list. -/
def startsWithL : List Char → List Char → Bool
  | [], _ => true
  | _ :: _, [] => false
  | a :: p, b :: t => a == b && startsWithL p t

/-- Whether `pat` occurs contiguously in the character list. -/
def containsSubL (pat : List Char) : List Char → Bool
  | [] => pat.isEmpty
  | b :: t => startsWithL pat (b :: t) || containsSubL pat t

/-- Whether `pat` occurs in `s` as a contiguous substring. -/
def strContains (s pat : String) : Bool := containsSubL pat.data s.data

/-! ## Shared lemmas: digest shape -/

/-- `flatCM` distributes over appends. -/
theorem flatCM_append (f : α → List β) (l1 l2 : List α) :
    flatCM f (l1 ++ l2) = flatCM f l1 ++ flatCM f l2 := by
  induction l1 with
  | nil => rfl
  | cons a t ih => simp [flatCM, ih]

/-- Hex rendering doubles the byte count. -/
theorem length_flatCM_hexPair (l : List Nat) : (flatCM hexPair l).length = 2 * l.length := by
  induction l with
  | nil => rfl
  | cons a t ih => simp [flatCM, hexPair, ih]; omega

/-- A SHA-256 hex digest always has 64 characters. -/
theorem sha256hex_length (msg : List Nat) : (sha256hex msg).length = 64 := by
  show (flatCM hexPair (digestBytes (shaCore msg))).length = 64
  rw [length_flatCM_hexPair]
  simp [digestBytes, wordBytes]

/-- A SHA-256 hex digest is never the empty string. -/
theorem sha256hex_ne_empty (msg : List Nat) : sha256hex msg ≠ "" := by
  intro h
  have h64 := sha256hex_length msg
  rw [h] at h64
  exact absurd h64 (by decide)

/-- Every element of a `flatCM` image comes from some list element. -/
theorem mem_flatCM {c : β} {f : α → List β} {l : List α} (h : c ∈ flatCM f l) :
    ∃ a ∈ l, c ∈ f a := by
  induction l with
  | nil => cases h
  | cons a t ih =>
    rcases List.mem_append.1 h with h' | h'
    · exact ⟨a, List.mem_cons_self a t, h'⟩
    · obtain ⟨b, hb, hcb⟩ := ih h'
      exact ⟨b, List.mem_cons_of_mem a hb, hcb⟩

/-- `hexChar` always lands in the sixteen lowercase hex digits. -/
theorem hexChar_mem (n : Nat) : hexChar n ∈ hexDigits := by
  by_cases h : n < 16
  · interval_cases n <;> decide
  · have hd : hexDigits.getD n '0' = '0' := by
      apply List.getD_eq_default
      simp only [hexDigits]
      simp [List.length]
      omega
    rw [hexChar, hd]
    decide

/-- Every character of a SHA-256 hex digest is a lowercase hex digit. -/
theorem sha256hex_chars (msg : List Nat) : ∀ c ∈ (sha256hex msg).data, c ∈ hexDigits := by
  intro c hc
  have hc' : c ∈ flatCM hexPair (digestBytes (shaCore msg)) := hc
  obtain ⟨a, _, hca⟩ := mem_flatCM hc'
  simp only [hexPair, List.mem_cons, List.not_mem_nil, or_false] at hca
  rcases hca with h | h <;> (subst h; exact hexChar_mem _)

/-! ## Shared lemmas: the chain invariant established by valid appends -/

/-- A fresh chain is well-formed. -/
theorem wffrom_inicializar (ts : String) : WFChain (inicializar ts) :=
  ⟨List.cons_ne_nil _ _, rfl, rfl, rfl, trivial⟩

/-- Appending a correctly linked, freshly hashed block preserves `WFfrom`. -/
theorem wffrom_append : ∀ (l : List Bloque) (p : String) (i : Int) (b : Bloque),
    WFfrom p i l → b.hash_previo = lastHashD p l → b.indice = i + l.length →
    b.hash_actual = b.calcular_hash → WFfrom p i (l ++ [b]) := by
  intro l
  induction l with
  | nil =>
    intro p i b _ h1 h2 h3
    exact ⟨h1, by simpa using h2, h3, trivial⟩
  | cons c t ih =>
    intro p i b hw h1 h2 h3
    obtain ⟨hc1, hc2, hc3, hct⟩ := hw
    refine ⟨hc1, hc2, hc3, ?_⟩
    refine ih c.hash_actual (i + 1) b hct h1 ?_ h3
    simp only [List.length_cons] at h2
    rw [h2]
    push_cast
    ring

/-- In a well-formed segment the last block stores the running hash and the
final index. -/
theorem wffrom_getLast : ∀ (l : List Bloque) (p : String) (i : Int) (b : Bloque),
    WFfrom p i l → l.getLast? = some b →
    b.hash_actual = lastHashD p l ∧ b.indice = i + l.length - 1 := by
  intro l
  induction l with
  | nil => intro p i b _ hb; cases hb
  | cons c t ih =>
    intro p i b hw hb
    obtain ⟨hc1, hc2, hc3, hct⟩ := hw
    cases t with
    | nil =>
      simp only [List.getLast?_singleton, Option.some.injEq] at hb
      subst hb
      constructor
      · rfl
      · simpa using hc2
    | cons d t' =>
      rw [List.getLast?_cons_cons] at hb
      obtain ⟨ha, hi⟩ := ih c.hash_actual (i + 1) b hct hb
      refine ⟨ha, ?_⟩
      rw [hi]
      simp only [List.length_cons]
      push_cast
      ring

/-- Every block of a well-formed segment passes its own validation. -/
theorem wffrom_validar {p : String} {i : Int} {l : List Bloque} (hw : WFfrom p i l) :
    ∀ b ∈ l, b.validar = true := by
  induction l generalizing p i with
  | nil => intro b hb; cases hb
  | cons c t ih =>
    obtain ⟨_, _, hc3, hct⟩ := hw
    intro b hb
    rcases List.mem_cons.1 hb with h | h
    · subst h
      simp [Bloque.validar, hc3]
    · exact ih hct b h

/-- When every block self-validates, the per-block loop reports nothing. -/
theorem primerBloqueInvalido_none {l : List Bloque} (h : ∀ b ∈ l, b.validar = true) :
    primerBloqueInvalido l = none := by
  induction l with
  | nil => rfl
  | cons b t ih =>
    have hb := h b (List.mem_cons_self b t)
    simp only [primerBloqueInvalido, hb, if_true]
    exact ih (fun c hc => h c (List.mem_cons_of_mem b hc))

/-- The index field of a record form. -/
theorem to_dictJ_indice (b : Bloque) : (Bloque.to_dictJ b).indice = some b.indice := rfl

/-- The previous-hash field of a record form. -/
theorem to_dictJ_hash_previo (b : Bloque) :
    (Bloque.to_dictJ b).hash_previo = some b.hash_previo := rfl

/-- The stored-hash field of a record form. -/
theorem to_dictJ_hash_actual (b : Bloque) :
    (Bloque.to_dictJ b).hash_actual = some b.hash_actual := rfl

/-- The link loop of the chain validator accepts a well-formed segment. -/
theorem validarEnlacesLoop_ok : ∀ (l : List Bloque) (prev : Bloque) (i : Nat),
    WFfrom prev.hash_actual (i : Int) l →
    validarEnlacesLoop (l.map Bloque.to_dictJ) prev.to_dictJ i = (true, "") := by
  intro l
  induction l with
  | nil => intro prev i _; rfl
  | cons b t ih =>
    intro prev i hw
    obtain ⟨h1, h2, _, ht⟩ := hw
    have e1 : (Bloque.to_dictJ b).indice = some (i : Int) := by rw [to_dictJ_indice, h2]
    have e2 : (Bloque.to_dictJ b).hash_previo = (Bloque.to_dictJ prev).hash_actual := by
      rw [to_dictJ_hash_previo, to_dictJ_hash_actual, h1]
    simp only [List.map_cons, validarEnlacesLoop, e1, e2, ne_eq, not_true_eq_false, if_false]
    have ht' : WFfrom b.hash_actual ((i + 1 : Nat) : Int) t := by
      push_cast
      exact ht
    exact ih b (i + 1) ht'

/-- The chain validator accepts a well-formed chain. -/
theorem validadorCadenaEspecifico_ok {l : List Bloque} (hne : l ≠ [])
    (hw : WFfrom "0" 0 l) :
    validadorCadenaEspecifico (l.map Bloque.to_dictJ) = (true, "") := by
  cases l with
  | nil => exact absurd rfl hne
  | cons g rest =>
    obtain ⟨h1, h2, _, ht⟩ := hw
    have e1 : (Bloque.to_dictJ g).indice = some (0 : Int) := by rw [to_dictJ_indice, h2]
    have e2 : (Bloque.to_dictJ g).hash_previo = some "0" := by rw [to_dictJ_hash_previo, h1]
    simp only [List.map_cons, validadorCadenaEspecifico, e1, e2, ne_eq, not_true_eq_false,
      if_false]
    have ht' : WFfrom g.hash_actual ((1 : Nat) : Int) rest := by
      push_cast
      simpa using ht
    exact validarEnlacesLoop_ok rest g 1 ht'

/-- `validar_cadena` reports success on any well-formed chain. -/
theorem validar_cadena_of_wf {l : List Bloque} (h : WFChain l) :
    validar_cadena l = (true, "Validación exitosa") := by
  obtain ⟨hne, hw⟩ := h
  have hv := primerBloqueInvalido_none (wffrom_validar hw)
  have hc := validadorCadenaEspecifico_ok hne hw
  simp [validar_cadena, hv, validarWrap, hc]

/-- The block validator accepts the record form of any freshly minted block
with a non-negative index: all fields are present and the computed hash is a
64-character digest, hence non-empty. -/
theorem bloqueValidator_crear (i : Int) (hi : 0 ≤ i) (d : Payload) (hp ts : String) :
    validarWrap validadorBloqueEspecifico (crear_bloque i d hp ts).to_dictJ =
      (true, "Validación exitosa") := by
  have hne := sha256hex_ne_empty (utf8Encode (combinarBloque i ts d hp 0))
  simp [validarWrap, validadorBloqueEspecifico, crear_bloque, Bloque.init, Bloque.to_dictJ,
    calcular_sha256, not_lt.mpr hi, hne]

/-- On a chain whose tail index is non-negative, `agregar_bloque` always
succeeds and appends exactly the freshly minted block. -/
theorem agregar_bloque_exito {cadena : List Bloque} {ultimo : Bloque}
    (hl : cadena.getLast? = some ultimo) (hi : 0 ≤ ultimo.indice)
    (datos : Payload) (ts : String) :
    agregar_bloque cadena datos ts =
      (true, cadena ++ [crear_bloque (ultimo.indice + 1) datos ultimo.hash_actual ts]) := by
  have hv := bloqueValidator_crear (ultimo.indice + 1) (by omega) datos ultimo.hash_actual ts
  simp [agregar_bloque, hl, hv]

/-- Appending through `agregar_bloque` preserves chain well-formedness. -/
theorem wfchain_agregar {cadena : List Bloque} (h : WFChain cadena)
    (datos : Payload) (ts : String) : WFChain (agregar_bloque cadena datos ts).2 := by
  obtain ⟨hne, hw⟩ := h
  obtain ⟨ultimo, hl⟩ := Option.isSome_iff_exists.1 (List.getLast?_isSome.2 hne)
  obtain ⟨hhash, hidx⟩ := wffrom_getLast cadena "0" 0 ultimo hw hl
  have hlen : 1 ≤ cadena.length := List.length_pos.2 hne
  have hi : 0 ≤ ultimo.indice := by omega
  rw [agregar_bloque_exito hl hi datos ts]
  refine ⟨by simp, ?_⟩
  refine wffrom_append cadena "0" 0 _ hw ?_ ?_ rfl
  · rw [← hhash]
    rfl
  · show ultimo.indice + 1 = 0 + (cadena.length : Int)
    rw [hidx]
    omega

/-- Any sequence of appends preserves chain well-formedness. -/
theorem wfchain_aplicar (ops : List (Payload × String)) :
    ∀ cadena, WFChain cadena → WFChain (aplicarAppends ops cadena) := by
  induction ops with
  | nil => intro cadena h; exact h
  | cons op rest ih =>
    intro cadena h
    exact ih _ (wfchain_agregar h op.1 op.2)

/-- The head block of a well-formed chain is a genesis-shaped block. -/
theorem wfchain_head {l : List Bloque} (h : WFChain l) {b : Bloque}
    (hb : l.head? = some b) :
    b.indice = 0 ∧ b.hash_previo = "0" ∧ b.hash_actual = b.calcular_hash := by
  obtain ⟨-, hw⟩ := h
  cases l with
  | nil => cases hb
  | cons c t =>
    obtain ⟨h1, h2, h3, -⟩ := hw
    simp only [List.head?_cons, Option.some.injEq] at hb
    subst hb
    exact ⟨h2, h1, h3⟩

/-! ## Shared lemmas: canonical payload serialization -/

/-- The character-list order is total. -/
theorem charListLe_total : ∀ s t : List Char, charListLe s t = false → charListLe t s = true := by
  intro s
  induction s with
  | nil => intro t h; simp [charListLe] at h
  | cons a s' ih =>
    intro t h
    cases t with
    | nil => simp [charListLe]
    | cons b t' =>
      simp only [charListLe] at h ⊢
      by_cases hab : a < b
      · rw [if_pos hab] at h
        cases h
      · rw [if_neg hab] at h
        by_cases hba : b < a
        · rw [if_pos hba]
        · rw [if_neg hba] at h
          rw [if_neg hba, if_neg hab]
          exact ih t' h

/-- The character-list order is transitive. -/
theorem charListLe_trans : ∀ s t u : List Char,
    charListLe s t = true → charListLe t u = true → charListLe s u = true := by
  intro s
  induction s with
  | nil => intro t u _ _; rfl
  | cons a s' ih =>
    intro t u h1 h2
    cases t with
    | nil => simp [charListLe] at h1
    | cons b t' =>
      cases u with
      | nil => simp [charListLe] at h2
      | cons c u' =>
        simp only [charListLe] at h1 h2 ⊢
        by_cases hab : a < b
        · by_cases hbc : b < c
          · rw [if_pos (lt_trans hab hbc)]
          · by_cases hcb : c < b
            · rw [if_neg hbc, if_pos hcb] at h2
              cases h2
            · have hbc' : b = c := le_antisymm (not_lt.1 hcb) (not_lt.1 hbc)
              subst hbc'
              rw [if_pos hab]
        · by_cases hba : b < a
          · rw [if_neg hab, if_pos hba] at h1
            cases h1
          · have hab' : a = b := le_antisymm (not_lt.1 hba) (not_lt.1 hab)
            subst hab'
            rw [if_neg (lt_irrefl a), if_neg (lt_irrefl a)] at h1
            by_cases hac : a < c
            · rw [if_pos hac]
            · by_cases hca : c < a
              · rw [if_neg hac, if_pos hca] at h2
                cases h2
              · rw [if_neg hac, if_neg hca] at h2 ⊢
                exact ih t' u' h1 h2

/-- The character-list order is antisymmetric. -/
theorem charListLe_antisymm : ∀ s t : List Char,
    charListLe s t = true → charListLe t s = true → s = t := by
  intro s
  induction s with
  | nil =>
    intro t _ h2
    cases t with
    | nil => rfl
    | cons b t' => simp [charListLe] at h2
  | cons a s' ih =>
    intro t h1 h2
    cases t with
    | nil => simp [charListLe] at h1
    | cons b t' =>
      simp only [charListLe] at h1 h2
      by_cases hab : a < b
      · rw [if_neg (lt_asymm hab), if_pos hab] at h2
        cases h2
      · by_cases hba : b < a
        · rw [if_neg hab, if_pos hba] at h1
          cases h1
        · have hab' : a = b := le_antisymm (not_lt.1 hba) (not_lt.1 hab)
          subst hab'
          rw [if_neg (lt_irrefl a), if_neg (lt_irrefl a)] at h1 h2
          rw [ih t' h1 h2]

/-- The string order is total. -/
theorem strLeB_total {s t : String} (h : strLeB s t = false) : strLeB t s = true :=
  charListLe_total s.data t.data h

/-- The string order is transitive. -/
theorem strLeB_trans {s t u : String} (h1 : strLeB s t = true) (h2 : strLeB t u = true) :
    strLeB s u = true :=
  charListLe_trans s.data t.data u.data h1 h2

/-- The string order is antisymmetric. -/
theorem strLeB_antisymm {s t : String} (h1 : strLeB s t = true) (h2 : strLeB t s = true) :
    s = t := by
  cases s with
  | mk sd =>
    cases t with
    | mk td =>
      exact congrArg String.mk (charListLe_antisymm sd td h1 h2)

/-- Sorted insertion permutes. -/
theorem insertByKey_perm (p : String × JVal) : ∀ l : Payload, (insertByKey p l).Perm (p :: l) := by
  intro l
  induction l with
  | nil => exact List.Perm.refl _
  | cons q t ih =>
    cases hle : strLeB p.1 q.1 with
    | true =>
      simp only [insertByKey, hle, if_true]
      exact List.Perm.refl _
    | false =>
      simp only [insertByKey, hle, Bool.false_eq_true, if_false]
      exact (ih.cons q).trans (List.Perm.swap p q t)

/-- Key sorting permutes. -/
theorem sortByKey_perm : ∀ l : Payload, (sortByKey l).Perm l := by
  intro l
  induction l with
  | nil => exact List.Perm.refl _
  | cons p t ih => exact (insertByKey_perm p (sortByKey t)).trans (ih.cons p)

/-- Sorted insertion keeps the list key-sorted. -/
theorem insertByKey_sorted (p : String × JVal) :
    ∀ l : Payload, l.Pairwise keyLe → (insertByKey p l).Pairwise keyLe := by
  intro l
  induction l with
  | nil =>
    intro _
    simp [insertByKey, keyLe]
  | cons q t ih =>
    intro h
    rw [List.pairwise_cons] at h
    obtain ⟨hq, ht⟩ := h
    cases hle : strLeB p.1 q.1 with
    | true =>
      simp only [insertByKey, hle, if_true]
      refine List.Pairwise.cons ?_ (List.Pairwise.cons hq ht)
      intro x hx
      rcases List.mem_cons.1 hx with rfl | hx'
      · exact hle
      · exact strLeB_trans hle (hq x hx')
    | false =>
      simp only [insertByKey, hle, Bool.false_eq_true, if_false]
      refine List.Pairwise.cons ?_ (ih ht)
      intro x hx
      have hx' : x = p ∨ x ∈ t := by
        simpa using (insertByKey_perm p t).mem_iff.1 hx
      rcases hx' with rfl | hx'
      · exact strLeB_total hle
      · exact hq x hx'

/-- Key sorting produces a key-sorted list. -/
theorem sortByKey_sorted : ∀ l : Payload, (sortByKey l).Pairwise keyLe := by
  intro l
  induction l with
  | nil => simp [sortByKey]
  | cons p t ih => exact insertByKey_sorted p (sortByKey t) ih

/-- With duplicate-free keys, a key-sorted list is strictly key-sorted. -/
theorem pairwise_keyLt {l : Payload} (hs : l.Pairwise keyLe)
    (hn : (l.map Prod.fst).Nodup) : l.Pairwise keyLt :=
  (hs.and (List.pairwise_map.mp hn)).imp fun h => ⟨h.1, h.2⟩

/-- Two structurally equal payload dicts (same pairs, any insertion order,
keys duplicate-free) sort to the same entry list. -/
theorem sortByKey_eq_of_perm {d1 d2 : Payload} (h : d1.Perm d2)
    (hn : (d1.map Prod.fst).Nodup) : sortByKey d1 = sortByKey d2 := by
  have hn2 : (d2.map Prod.fst).Nodup := ((h.map Prod.fst).nodup_iff).1 hn
  have hns1 : ((sortByKey d1).map Prod.fst).Nodup :=
    ((sortByKey_perm d1).map Prod.fst).nodup_iff.2 hn
  have hns2 : ((sortByKey d2).map Prod.fst).Nodup :=
    ((sortByKey_perm d2).map Prod.fst).nodup_iff.2 hn2
  have hperm : (sortByKey d1).Perm (sortByKey d2) :=
    ((sortByKey_perm d1).trans h).trans (sortByKey_perm d2).symm
  haveI : IsAntisymm (String × JVal) keyLt :=
    ⟨fun _ _ h1 h2 => absurd (strLeB_antisymm h1.1 h2.1) h1.2⟩
  exact List.eq_of_perm_of_sorted hperm
    (pairwise_keyLt (sortByKey_sorted d1) hns1) (pairwise_keyLt (sortByKey_sorted d2) hns2)

/-! ## Shared lemmas: the simulated attack -/

/-- `simular_ataque` at index 0 of a non-empty chain overwrites the head
block's payload in place. -/
theorem simular_ataque_zero (b : Bloque) (rest : List Bloque) (nuevos : Payload) :
    simular_ataque (b :: rest) 0 nuevos = (true, b.modificar_datos nuevos :: rest) := by
  have hlt : (0 : Int) < ((b :: rest).length : Int) := by
    exact_mod_cast Nat.succ_pos rest.length
  simp [simular_ataque, hlt, modifyAt]

/-- A corrupted block whose recomputed hash moved away from the stored one no
longer self-validates. -/
theorem validar_modificar_false {b : Bloque} {nuevos : Payload}
    (h : (b.modificar_datos nuevos).calcular_hash ≠ b.hash_actual) :
    (b.modificar_datos nuevos).validar = false := by
  show ((b.modificar_datos nuevos).calcular_hash == (b.modificar_datos nuevos).hash_actual) = false
  exact beq_eq_false_iff_ne.mpr h

/-- `validar_cadena` on a chain whose head fails self-validation reports that
head block's index. -/
theorem validar_cadena_cons_false {b : Bloque} {rest : List Bloque} (h : b.validar = false) :
    validar_cadena (b :: rest) =
      (false, "Bloque " ++ toString b.indice ++ " tiene hash inválido") := by
  simp [validar_cadena, primerBloqueInvalido, h]

/-! ## Claim theorems -/

/-- C4: serialization round-trip. For every block — whatever its stored
`hash_actual`, including a stale hash left by a corruption — rebuilding from
the `to_dict` record restores index, timestamp, payload, previous hash,
stored hash and nonce exactly; in particular the stale stored hash is
restored, not recomputed. -/
theorem C4_round_trip (b : Bloque) : Bloque.from_dictJ (Bloque.to_dictJ b) = some b := rfl

/-- C2: `agregar_bloque` reads the tail block, mints the block whose index is
the tail index plus one and whose previous hash is the tail's stored hash,
and runs the block validator on its record form: a validator failure leaves
the chain unchanged and returns failure, a validator success appends exactly
that block and returns success. -/
theorem C2_append_contract (cadena : List Bloque) (ultimo : Bloque) (datos : Payload)
    (ts : String) (hl : cadena.getLast? = some ultimo) :
    ((validarWrap validadorBloqueEspecifico
        (crear_bloque (ultimo.indice + 1) datos ultimo.hash_actual ts).to_dictJ).1 = false →
      agregar_bloque cadena datos ts = (false, cadena)) ∧
    ((validarWrap validadorBloqueEspecifico
        (crear_bloque (ultimo.indice + 1) datos ultimo.hash_actual ts).to_dictJ).1 = true →
      agregar_bloque cadena datos ts =
        (true, cadena ++ [crear_bloque (ultimo.indice + 1) datos ultimo.hash_actual ts])) := by
  constructor
  · intro h
    simp [agregar_bloque, hl, h]
  · intro h
    simp [agregar_bloque, hl, h]

/-- Witness for C2 at a concrete one-block chain. -/
theorem C2_append_contract_witness :
    ([⟨0, "t", [], "0", "h", 0⟩] : List Bloque).getLast? = some ⟨0, "t", [], "0", "h", 0⟩ ∧
    (((validarWrap validadorBloqueEspecifico
        (crear_bloque ((⟨0, "t", [], "0", "h", 0⟩ : Bloque).indice + 1) []
          (⟨0, "t", [], "0", "h", 0⟩ : Bloque).hash_actual "t2").to_dictJ).1 = false →
      agregar_bloque [⟨0, "t", [], "0", "h", 0⟩] [] "t2" =
        (false, [⟨0, "t", [], "0", "h", 0⟩])) ∧
     ((validarWrap validadorBloqueEspecifico
        (crear_bloque ((⟨0, "t", [], "0", "h", 0⟩ : Bloque).indice + 1) []
          (⟨0, "t", [], "0", "h", 0⟩ : Bloque).hash_actual "t2").to_dictJ).1 = true →
      agregar_bloque [⟨0, "t", [], "0", "h", 0⟩] [] "t2" =
        (true, [⟨0, "t", [], "0", "h", 0⟩] ++
          [crear_bloque ((⟨0, "t", [], "0", "h", 0⟩ : Bloque).indice + 1) []
            (⟨0, "t", [], "0", "h", 0⟩ : Bloque).hash_actual "t2"]))) :=
  ⟨rfl, C2_append_contract [⟨0, "t", [], "0", "h", 0⟩] ⟨0, "t", [], "0", "h", 0⟩ [] "t2" rfl⟩

/-- C9: on any chain state with a tail block of non-negative index — which
covers every state this program can reach, since indices equal positions —
`agregar_bloque` never takes its validator-failure or exception branch: it
returns `True` and appends exactly the freshly minted block. -/
theorem C9_append_never_fails (cadena : List Bloque) (ultimo : Bloque) (datos : Payload)
    (ts : String) (hl : cadena.getLast? = some ultimo) (hi : 0 ≤ ultimo.indice) :
    agregar_bloque cadena datos ts =
      (true, cadena ++ [crear_bloque (ultimo.indice + 1) datos ultimo.hash_actual ts]) :=
  agregar_bloque_exito hl hi datos ts

/-- Witness for C9 at a concrete one-block chain. -/
theorem C9_append_never_fails_witness :
    ([⟨0, "t", [], "0", "h", 0⟩] : List Bloque).getLast? = some ⟨0, "t", [], "0", "h", 0⟩ ∧
    0 ≤ (⟨0, "t", [], "0", "h", 0⟩ : Bloque).indice ∧
    agregar_bloque [⟨0, "t", [], "0", "h", 0⟩] [("k", JVal.jstr "v")] "t2" =
      (true, [⟨0, "t", [], "0", "h", 0⟩] ++
        [crear_bloque ((⟨0, "t", [], "0", "h", 0⟩ : Bloque).indice + 1) [("k", JVal.jstr "v")]
          (⟨0, "t", [], "0", "h", 0⟩ : Bloque).hash_actual "t2"]) :=
  ⟨rfl, by decide,
    C9_append_never_fails [⟨0, "t", [], "0", "h", 0⟩] ⟨0, "t", [], "0", "h", 0⟩
      [("k", JVal.jstr "v")] "t2" rfl (by decide)⟩

/-- C3: starting from the freshly initialized chain, after any sequence of
`agregar_bloque` calls (successful ones change the chain, failed ones leave
it untouched) `validar_cadena` reports the chain valid. -/
theorem C3_validity_invariant (ops : List (Payload × String)) (ts0 : String) :
    (validar_cadena (aplicarAppends ops (inicializar ts0))).1 = true := by
  rw [validar_cadena_of_wf (wfchain_aplicar ops _ (wffrom_inicializar ts0))]

/-- C6: `calcular_sha256` is determined by the structural content of a
mapping — two payload dicts holding the same key-value pairs in any insertion
order (keys duplicate-free) hash identically, because the serialization sorts
keys first — and on every input the digest is a 64-character string drawn
from the lowercase hexadecimal alphabet. -/
theorem C6_hash_canonical_and_hex :
    (∀ d1 d2 : Payload, d1.Perm d2 → (d1.map Prod.fst).Nodup →
      calcular_sha256 (.dict d1) = calcular_sha256 (.dict d2)) ∧
    (∀ x : HashInput, (calcular_sha256 x).length = 64 ∧
      ∀ c ∈ (calcular_sha256 x).data, c ∈ hexDigits) := by
  constructor
  · intro d1 d2 h hn
    show sha256hex (utf8Encode (dumpsSorted d1)) = sha256hex (utf8Encode (dumpsSorted d2))
    rw [dumpsSorted, dumpsSorted, sortByKey_eq_of_perm h hn]
  · intro x
    cases x with
    | str s => exact ⟨sha256hex_length _, sha256hex_chars _⟩
    | dict d => exact ⟨sha256hex_length _, sha256hex_chars _⟩

/-- Witness for C6: two concrete dicts differing only in insertion order hash
identically, and a concrete digest has 64 characters. -/
theorem C6_hash_canonical_and_hex_witness :
    ([("b", JVal.jstr "1"), ("a", JVal.jstr "2")] : Payload).Perm
      [("a", JVal.jstr "2"), ("b", JVal.jstr "1")] ∧
    (([("b", JVal.jstr "1"), ("a", JVal.jstr "2")] : Payload).map Prod.fst).Nodup ∧
    calcular_sha256 (.dict [("b", JVal.jstr "1"), ("a", JVal.jstr "2")]) =
      calcular_sha256 (.dict [("a", JVal.jstr "2"), ("b", JVal.jstr "1")]) ∧
    (calcular_sha256 (.str "abc")).length = 64 :=
  ⟨by decide, by decide,
    C6_hash_canonical_and_hex.1 [("b", JVal.jstr "1"), ("a", JVal.jstr "2")]
      [("a", JVal.jstr "2"), ("b", JVal.jstr "1")] (by decide) (by decide),
    (C6_hash_canonical_and_hex.2 (.str "abc")).1⟩

/-- C10: `get_datos` hands out a copy. In the reference-level view, the
reference it returns is fresh, so writing any payload through it leaves the
block's stored payload — and therefore its `validar` verdict — unchanged. -/
theorem C10_get_datos_isolated (store : List Payload) (b : BloqueRef)
    (h : b.datosRef < store.length) (p : Payload) :
    storeRead (storeWrite (get_datosRef store b).1 (get_datosRef store b).2 p) b.datosRef =
      storeRead store b.datosRef ∧
    validarRef (storeWrite (get_datosRef store b).1 (get_datosRef store b).2 p) b =
      validarRef store b := by
  have e1 : (get_datosRef store b).1 = store ++ [storeRead store b.datosRef] := rfl
  have e2 : (get_datosRef store b).2 = store.length := rfl
  have hr : storeRead
      (storeWrite (store ++ [storeRead store b.datosRef]) store.length p) b.datosRef =
      storeRead store b.datosRef := by
    show (List.set (store ++ [storeRead store b.datosRef]) store.length p).getD b.datosRef [] =
      store.getD b.datosRef []
    rw [List.getD_eq_getElem?_getD, List.getElem?_set_ne (by omega),
      List.getElem?_append_left h, ← List.getD_eq_getElem?_getD]
  rw [e1, e2]
  refine ⟨hr, ?_⟩
  unfold validarRef calcular_hashRef
  rw [hr]

/-- Witness for C10 at a concrete one-object store. -/
theorem C10_get_datos_isolated_witness :
    (⟨0, "t", 0, "0", "h", 0⟩ : BloqueRef).datosRef < ([[("a", JVal.jstr "x")]] : List Payload).length ∧
    (storeRead
        (storeWrite (get_datosRef [[("a", JVal.jstr "x")]] ⟨0, "t", 0, "0", "h", 0⟩).1
          (get_datosRef [[("a", JVal.jstr "x")]] ⟨0, "t", 0, "0", "h", 0⟩).2 [])
        (⟨0, "t", 0, "0", "h", 0⟩ : BloqueRef).datosRef =
      storeRead [[("a", JVal.jstr "x")]] (⟨0, "t", 0, "0", "h", 0⟩ : BloqueRef).datosRef ∧
     validarRef
        (storeWrite (get_datosRef [[("a", JVal.jstr "x")]] ⟨0, "t", 0, "0", "h", 0⟩).1
          (get_datosRef [[("a", JVal.jstr "x")]] ⟨0, "t", 0, "0", "h", 0⟩).2 [])
        ⟨0, "t", 0, "0", "h", 0⟩ =
      validarRef [[("a", JVal.jstr "x")]] ⟨0, "t", 0, "0", "h", 0⟩) :=
  ⟨by decide, C10_get_datos_isolated [[("a", JVal.jstr "x")]] ⟨0, "t", 0, "0", "h", 0⟩ (by decide) []⟩

/-- C5 (amended): `importar_json` is replace-or-reject, with rebuilding as a
second gate: an unreadable/unparsable file, a record list the chain validator
rejects, or a record lacking a field `from_dict` requires all return failure
with the in-memory chain exactly as before; when validation succeeds and
every record rebuilds, the chain is wholesale replaced by the rebuilt
blocks. -/
theorem C5_import_replace_or_reject (cadena : List Bloque) (contenido : Option (List RecordJ)) :
    (contenido = none → importar_json cadena contenido = (false, cadena)) ∧
    (∀ rs, contenido = some rs → (validarWrap validadorCadenaEspecifico rs).1 = false →
      importar_json cadena contenido = (false, cadena)) ∧
    (∀ rs, contenido = some rs → (validarWrap validadorCadenaEspecifico rs).1 = true →
      rebuildCadena rs = none → importar_json cadena contenido = (false, cadena)) ∧
    (∀ rs nueva, contenido = some rs → (validarWrap validadorCadenaEspecifico rs).1 = true →
      rebuildCadena rs = some nueva → importar_json cadena contenido = (true, nueva)) := by
  refine ⟨?_, ?_, ?_, ?_⟩
  · intro h
    subst h
    rfl
  · intro rs h hv
    subst h
    simp [importar_json, hv]
  · intro rs h hv hr
    subst h
    simp [importar_json, hv, hr]
  · intro rs nueva h hv hr
    subst h
    simp [importar_json, hv, hr]

/-- Witness for C5: a record list that the chain validator accepts but whose
single record lacks the timestamp field, so the rebuild gate rejects it and
the chain is untouched. -/
theorem C5_import_replace_or_reject_witness :
    (validarWrap validadorCadenaEspecifico
        [⟨some 0, none, none, some "0", some "h", none⟩]).1 = true ∧
    rebuildCadena [⟨some 0, none, none, some "0", some "h", none⟩] = none ∧
    importar_json [] (some [⟨some 0, none, none, some "0", some "h", none⟩]) = (false, []) :=
  ⟨by decide, by decide,
    (C5_import_replace_or_reject [] (some [⟨some 0, none, none, some "0", some "h", none⟩])).2.2.1
      [⟨some 0, none, none, some "0", some "h", none⟩] rfl (by decide) (by decide)⟩

/-- Counterexample to C5 as stated: for this record list the chain validator
succeeds, yet `importar_json` returns failure and replaces nothing, because
the record has no timestamp and `Bloque.from_dict` raises `KeyError`. The
claim "if validation succeeds, the in-memory sequence is wholesale replaced"
is therefore false on the code. -/
theorem C5_import_claim_counterexample :
    (validarWrap validadorCadenaEspecifico
        [⟨some 0, none, none, some "0", some "hx", none⟩]).1 = true ∧
    importar_json [⟨0, "t", [], "0", "h", 0⟩] (some [⟨some 0, none, none, some "0", some "hx", none⟩]) =
      (false, [⟨0, "t", [], "0", "h", 0⟩]) := by
  constructor
  · decide
  · decide

/-- C8 (amended): submitting an amount-0 transaction through the controller
with non-empty sender and receiver is rejected before any mutation, with the
validator message for the `cantidad` field (the zero amount trips the Python
emptiness check `not datos['cantidad']` before the positivity check); the
chain state is returned unchanged. When the sender or receiver is itself
empty, the rejection message names that field instead — see the
counterexample. -/
theorem C8_amount_zero_rejected (cadena : List Bloque) (emisor receptor descripcion ts1 ts2 : String)
    (hem : emisor ≠ "") (hrec : receptor ≠ "") :
    agregar_bloque_con_transaccion cadena emisor receptor 0 descripcion ts1 ts2 =
      ((false, "El campo 'cantidad' no puede estar vacío"), cadena) ∧
    strContains "El campo 'cantidad' no puede estar vacío" "cantidad" = true := by
  constructor
  · simp [agregar_bloque_con_transaccion, validarWrap, validadorTransaccionEspecifico, lookupP,
      esFalsy, hem, hrec]
  · decide

/-- Witness for C8 at concrete inputs. -/
theorem C8_amount_zero_rejected_witness :
    ("Alice" : String) ≠ "" ∧ ("Bob" : String) ≠ "" ∧
    (agregar_bloque_con_transaccion [] "Alice" "Bob" 0 "pago" "t1" "t2" =
      ((false, "El campo 'cantidad' no puede estar vacío"), []) ∧
     strContains "El campo 'cantidad' no puede estar vacío" "cantidad" = true) :=
  ⟨by decide, by decide,
    C8_amount_zero_rejected [] "Alice" "Bob" "pago" "t1" "t2" (by decide) (by decide)⟩

/-- Counterexample to C8 as stated: with amount 0 and an empty sender the
controller still rejects without mutation, but the message names the `emisor`
field, not the amount — so "rejected with a message naming the
amount/cantidad field" fails for this amount-0 submission. -/
theorem C8_amount_zero_claim_counterexample :
    agregar_bloque_con_transaccion [] "" "Bob" 0 "" "t1" "t2" =
      ((false, "El campo 'emisor' no puede estar vacío"), []) ∧
    strContains "El campo 'emisor' no puede estar vacío" "cantidad" = false := by
  constructor
  · decide
  · decide

/-- What `obtener_estadisticas` returns on a non-empty chain, phrased through
the named operations: block count is `longitud`, size is the UTF-8 byte count
of the compact dump, the mean interval is the rounded quotient of the
first-to-last timestamp span, validity is `validar_cadena`'s flag. -/
theorem obtener_estadisticas_eq (cadena : List Bloque) (b0 bl : Bloque)
    (hh : cadena.head? = some b0) (hl : cadena.getLast? = some bl) :
    obtener_estadisticas cadena = some
      { total_bloques := longitud cadena,
        tamano_bytes := (utf8Encode (dumpsChainCompact cadena)).length,
        tiempo_promedio_segundos :=
          if 1 < longitud cadena then
            round2 ((parseIso bl.timestamp - parseIso b0.timestamp) /
              ((longitud cadena - 1 : Nat) : ℚ))
          else 0,
        es_valida := (validar_cadena cadena).1 } := by
  cases cadena with
  | nil => cases hh
  | cons b rest =>
    have hb : b = b0 := by simpa using hh
    subst hb
    have hgl : (b :: rest).getLast (List.cons_ne_nil b rest) = bl := by
      have h1 := List.getLast?_eq_getLast (b :: rest) (List.cons_ne_nil b rest)
      rw [h1] at hl
      exact Option.some.inj hl
    simp only [obtener_estadisticas, longitud, hgl]

/-- C7 (amended): on every non-empty chain, `obtener_estadisticas` reports
the block count (`longitud`), the UTF-8 byte size of the *compact*
`json.dumps` serialization (default separators, `ensure_ascii=True` — not the
indented export form), the first-to-last timestamp span divided by count - 1
and rounded to two decimals (zero when the count is 1), and
`validar_cadena`'s boolean verdict. -/
theorem C7_stats_contract (cadena : List Bloque) (b0 bl : Bloque)
    (hh : cadena.head? = some b0) (hl : cadena.getLast? = some bl) :
    obtener_estadisticas cadena = some
      { total_bloques := longitud cadena,
        tamano_bytes := (utf8Encode (dumpsChainCompact cadena)).length,
        tiempo_promedio_segundos :=
          if 1 < longitud cadena then
            round2 ((parseIso bl.timestamp - parseIso b0.timestamp) /
              ((longitud cadena - 1 : Nat) : ℚ))
          else 0,
        es_valida := (validar_cadena cadena).1 } :=
  obtener_estadisticas_eq cadena b0 bl hh hl

/-- Witness for C7 at a concrete one-block chain. -/
theorem C7_stats_contract_witness :
    ([⟨0, "t", [], "0", "h", 0⟩] : List Bloque).head? = some ⟨0, "t", [], "0", "h", 0⟩ ∧
    ([⟨0, "t", [], "0", "h", 0⟩] : List Bloque).getLast? = some ⟨0, "t", [], "0", "h", 0⟩ ∧
    obtener_estadisticas [⟨0, "t", [], "0", "h", 0⟩] = some
      { total_bloques := longitud [⟨0, "t", [], "0", "h", 0⟩],
        tamano_bytes := (utf8Encode (dumpsChainCompact [⟨0, "t", [], "0", "h", 0⟩])).length,
        tiempo_promedio_segundos :=
          if 1 < longitud [⟨0, "t", [], "0", "h", 0⟩] then
            round2 ((parseIso (⟨0, "t", [], "0", "h", 0⟩ : Bloque).timestamp -
              parseIso (⟨0, "t", [], "0", "h", 0⟩ : Bloque).timestamp) /
              ((longitud [⟨0, "t", [], "0", "h", 0⟩] - 1 : Nat) : ℚ))
          else 0,
        es_valida := (validar_cadena [⟨0, "t", [], "0", "h", 0⟩]).1 } :=
  ⟨rfl, rfl, C7_stats_contract [⟨0, "t", [], "0", "h", 0⟩] ⟨0, "t", [], "0", "h", 0⟩
    ⟨0, "t", [], "0", "h", 0⟩ rfl rfl⟩

/-- Concrete evaluation of `parseIso` on a midnight timestamp. -/
theorem parseIso_jan1_s0 : parseIso "2025-01-01T00:00:00" = (739557 : ℚ) * 86400 := by
  simp only [parseIso]
  rw [show digitsVal ("2025-01-01T00:00:00".data.take 4) = 2025 from by decide,
    show digitsVal (("2025-01-01T00:00:00".data.drop 5).take 2) = 1 from by decide,
    show digitsVal (("2025-01-01T00:00:00".data.drop 8).take 2) = 1 from by decide,
    show digitsVal (("2025-01-01T00:00:00".data.drop 11).take 2) = 0 from by decide,
    show digitsVal (("2025-01-01T00:00:00".data.drop 14).take 2) = 0 from by decide,
    show digitsVal (("2025-01-01T00:00:00".data.drop 17).take 2) = 0 from by decide,
    show ("2025-01-01T00:00:00".data.drop 20).takeWhile Char.isDigit = ([] : List Char)
      from by decide,
    show daysFromCivil 2025 1 1 = 739557 from by decide]
  norm_num

/-- Concrete evaluation of `parseIso` one second after midnight. -/
theorem parseIso_jan1_s1 : parseIso "2025-01-01T00:00:01" = (739557 : ℚ) * 86400 + 1 := by
  simp only [parseIso]
  rw [show digitsVal ("2025-01-01T00:00:01".data.take 4) = 2025 from by decide,
    show digitsVal (("2025-01-01T00:00:01".data.drop 5).take 2) = 1 from by decide,
    show digitsVal (("2025-01-01T00:00:01".data.drop 8).take 2) = 1 from by decide,
    show digitsVal (("2025-01-01T00:00:01".data.drop 11).take 2) = 0 from by decide,
    show digitsVal (("2025-01-01T00:00:01".data.drop 14).take 2) = 0 from by decide,
    show digitsVal (("2025-01-01T00:00:01".data.drop 17).take 2) = 1 from by decide,
    show ("2025-01-01T00:00:01".data.drop 20).takeWhile Char.isDigit = ([] : List Char)
      from by decide,
    show daysFromCivil 2025 1 1 = 739557 from by decide]
  norm_num

/-- Rounding to two decimals moves one third. -/
theorem round2_one_third_ne : round2 ((1 : ℚ) / 3) ≠ 1 / 3 := by
  have hf : (⌊(1 : ℚ) / 3 * 100⌋ : Int) = 33 := by norm_num
  simp only [round2, roundHalfEven, hf]
  rw [if_pos (by norm_num : (1 : ℚ) / 3 * 100 - ((33 : Int) : ℚ) < 1 / 2)]
  norm_num

set_option maxRecDepth 400000 in
/-- Counterexample to C7 as stated: the reported byte size is the length of
the compact default dump, not of the 2-space-indented export serialization
(first conjunct, a one-block chain where the two lengths differ); and over a
four-block chain whose first and last timestamps are one second apart the
reported mean interval is `round(1/3, 2) = 0.33`, not the exact quotient
1/3 of the elapsed span by count - 1 (second conjunct). -/
theorem C7_stats_claim_counterexample :
    (obtener_estadisticas [⟨0, "t", [("a", JVal.jstr "x")], "0", "h", 0⟩]).map
        Estadisticas.tamano_bytes ≠
      some (utf8Encode (exportar_json_contenido
        [⟨0, "t", [("a", JVal.jstr "x")], "0", "h", 0⟩])).length ∧
    (obtener_estadisticas
        [⟨0, "2025-01-01T00:00:00", [], "0", "ha", 0⟩,
         ⟨1, "tm1", [], "ha", "hb", 0⟩,
         ⟨2, "tm2", [], "hb", "hc", 0⟩,
         ⟨3, "2025-01-01T00:00:01", [], "hc", "hd", 0⟩]).map
        Estadisticas.tiempo_promedio_segundos ≠
      some ((parseIso "2025-01-01T00:00:01" - parseIso "2025-01-01T00:00:00") / 3) := by
  constructor
  · decide
  · rw [obtener_estadisticas_eq
      [(⟨0, "2025-01-01T00:00:00", [], "0", "ha", 0⟩ : Bloque),
       ⟨1, "tm1", [], "ha", "hb", 0⟩,
       ⟨2, "tm2", [], "hb", "hc", 0⟩,
       ⟨3, "2025-01-01T00:00:01", [], "hc", "hd", 0⟩]
      ⟨0, "2025-01-01T00:00:00", [], "0", "ha", 0⟩
      ⟨3, "2025-01-01T00:00:01", [], "hc", "hd", 0⟩ rfl rfl, Option.map_some']
    have hdiff : parseIso "2025-01-01T00:00:01" - parseIso "2025-01-01T00:00:00" = 1 := by
      rw [parseIso_jan1_s0, parseIso_jan1_s1]
      ring
    rw [hdiff]
    intro hcontra
    rw [Option.some.injEq] at hcontra
    rw [if_pos (by decide : 1 < longitud
      [(⟨0, "2025-01-01T00:00:00", [], "0", "ha", 0⟩ : Bloque),
       ⟨1, "tm1", [], "ha", "hb", 0⟩,
       ⟨2, "tm2", [], "hb", "hc", 0⟩,
       ⟨3, "2025-01-01T00:00:01", [], "hc", "hd", 0⟩])] at hcontra
    rw [show ((longitud
      [(⟨0, "2025-01-01T00:00:00", [], "0", "ha", 0⟩ : Bloque),
       ⟨1, "tm1", [], "ha", "hb", 0⟩,
       ⟨2, "tm2", [], "hb", "hc", 0⟩,
       ⟨3, "2025-01-01T00:00:01", [], "hc", "hd", 0⟩] - 1 : Nat) : ℚ) = 3 from by
        norm_num [longitud]] at hcontra
    exact round2_one_third_ne (by simpa using hcontra)

/-- C1 (amended): on any chain built by valid appends, corrupting block 0
with a payload that actually changes its recomputed hash (`new_payload` equal
to the stored payload — or a SHA-256 collision — would not) makes
`simular_ataque` succeed, makes `validar_cadena` report failure with the
message naming block 0, and leaves every block 1..N-1 self-valid. -/
theorem C1_tamper_detection (ops : List (Payload × String)) (ts0 : String)
    (cadena : List Bloque) (b0 : Bloque) (nuevos : Payload)
    (hcad : cadena = aplicarAppends ops (inicializar ts0))
    (hlen : 2 ≤ cadena.length)
    (hhead : cadena.head? = some b0)
    (hneq : (b0.modificar_datos nuevos).calcular_hash ≠ b0.hash_actual) :
    (simular_ataque cadena 0 nuevos).1 = true ∧
    validar_cadena (simular_ataque cadena 0 nuevos).2 =
      (false, "Bloque 0 tiene hash inválido") ∧
    ∀ i (h : i < (simular_ataque cadena 0 nuevos).2.length), 1 ≤ i →
      ((simular_ataque cadena 0 nuevos).2.get ⟨i, h⟩).validar = true := by
  have hwf : WFChain cadena := by
    rw [hcad]
    exact wfchain_aplicar ops _ (wffrom_inicializar ts0)
  obtain ⟨hidx0, -, -⟩ := wfchain_head hwf hhead
  cases cadena with
  | nil => cases hhead
  | cons c rest =>
    have hc : c = b0 := by simpa using hhead
    subst hc
    rw [simular_ataque_zero]
    refine ⟨rfl, ?_, ?_⟩
    · rw [validar_cadena_cons_false (validar_modificar_false hneq)]
      rw [show (c.modificar_datos nuevos).indice = c.indice from rfl, hidx0]
      rfl
    · intro i h h1
      cases i with
      | zero => omega
      | succ j =>
        have hj : j < rest.length := by simpa using h
        have hget : ((c.modificar_datos nuevos :: rest).get ⟨j + 1, h⟩) = rest.get ⟨j, hj⟩ := rfl
        rw [hget]
        obtain ⟨-, -, -, htail⟩ := hwf.2
        exact wffrom_validar htail _ (rest.get_mem _ _)



set_option maxRecDepth 1000000 in
/-- Witness for C1 on the concrete two-block chain built by one append after
initialization, corrupting the genesis block with a fresh payload. -/
theorem C1_tamper_detection_witness :
    aplicarAppends [([("a", JVal.jstr "x")], "t1")] (inicializar "t0") =
      aplicarAppends [([("a", JVal.jstr "x")], "t1")] (inicializar "t0") ∧
    2 ≤ (aplicarAppends [([("a", JVal.jstr "x")], "t1")] (inicializar "t0")).length ∧
    (aplicarAppends [([("a", JVal.jstr "x")], "t1")] (inicializar "t0")).head? =
      some (crear_bloque_genesis "t0") ∧
    ((crear_bloque_genesis "t0").modificar_datos
        [("mensaje", JVal.jstr "pwned")]).calcular_hash ≠
      (crear_bloque_genesis "t0").hash_actual ∧
    (simular_ataque (aplicarAppends [([("a", JVal.jstr "x")], "t1")] (inicializar "t0")) 0
        [("mensaje", JVal.jstr "pwned")]).1 = true :=
  ⟨rfl, by decide, by decide, by decide,
    (C1_tamper_detection [([("a", JVal.jstr "x")], "t1")] "t0"
      (aplicarAppends [([("a", JVal.jstr "x")], "t1")] (inicializar "t0"))
      (crear_bloque_genesis "t0") [("mensaje", JVal.jstr "pwned")]
      rfl (by decide) (by decide) (by decide)).1⟩

/-- Counterexample to C1 as stated: on a valid two-block chain,
`corrupt_block(0, new_payload)` with `new_payload` equal to the genesis
payload succeeds, yet `validar_cadena` still reports the chain valid — the
claim's "validate_chain() returns false" does not hold for every
`new_payload`. -/
theorem C1_tamper_claim_counterexample :
    (simular_ataque (aplicarAppends [([("a", JVal.jstr "x")], "t1")] (inicializar "t0")) 0
        datosGenesis).1 = true ∧
    2 ≤ (aplicarAppends [([("a", JVal.jstr "x")], "t1")] (inicializar "t0")).length ∧
    (validar_cadena (simular_ataque
        (aplicarAppends [([("a", JVal.jstr "x")], "t1")] (inicializar "t0")) 0
        datosGenesis).2).1 = true := by
  have hwf : WFChain (aplicarAppends [([("a", JVal.jstr "x")], "t1")] (inicializar "t0")) :=
    wfchain_aplicar _ _ (wffrom_inicializar "t0")
  have hg : (inicializar "t0").getLast? = some (crear_bloque_genesis "t0") := rfl
  have happ := agregar_bloque_exito hg (le_refl 0) [("a", JVal.jstr "x")] "t1"
  have hchain : aplicarAppends [([("a", JVal.jstr "x")], "t1")] (inicializar "t0") =
      crear_bloque_genesis "t0" ::
        [crear_bloque ((crear_bloque_genesis "t0").indice + 1) [("a", JVal.jstr "x")]
          (crear_bloque_genesis "t0").hash_actual "t1"] := by
    show (agregar_bloque (inicializar "t0") [("a", JVal.jstr "x")] "t1").2 = _
    rw [happ]
    rfl
  rw [hchain]
  rw [simular_ataque_zero]
  have hid : (crear_bloque_genesis "t0").modificar_datos datosGenesis =
      crear_bloque_genesis "t0" := rfl
  rw [hid]
  rw [hchain] at hwf
  refine ⟨rfl, by simp, ?_⟩
  rw [validar_cadena_of_wf hwf]
